import Mathlib

/-!
Verification of the SLAPS filesystem task-coordination system.

Shallow embedding of the coordination core of the repository:
  - the filesystem mailbox protocol (directories open-tasks / claude-NNN /
    finished-tasks / failed-tasks / help-me) used by `claude_worker.py` and
    `slaps_file_coordinator.py`, modelled as a location function on task ids
    together with an atomic-rename step relation;
  - the frontier scheduler `FileBasedSLAPSCoordinator.get_ready_tasks`,
    `publish_ready_tasks` and the main loop guard of
    `slaps_file_coordinator.py`;
  - the dependency-graph loader of `slaps_file_coordinator.load_tasks` /
    `SLAPSCoordinator.__init__`;
  - the `ResourceManager` of `slaps_coordinator.py` (exclusive locks as
    `threading.Lock`, shared pools as `threading.Semaphore`);
  - the dispatch-envelope record built by
    `FileBasedSLAPSCoordinator.create_task_file` and annotated by
    `ClaudeWorker.execute_task`.

Concurrency note: every cross-process interaction in the system goes through
filesystem rename, which is atomic, so a concurrent execution of workers is
equivalent to an interleaving of atomic claim attempts; the models below make
that serialization explicit.
-/

namespace Slaps

/-- Location of one task file in the mailbox directory tree.
`staged` means the coordinator has not yet published the task,
`openT` is `open-tasks/`, `claimed w` is the private directory of worker `w`
(`claude-NNN/`), `finished` is `finished-tasks/`, `failedT` is
`failed-tasks/`, and `helpT` is `help-me/`. A file is in exactly one
directory at a time, which is why the filesystem is a function from task id
to location. -/
inductive Loc where
  | staged : Loc
  | openT : Loc
  | claimed : Nat → Loc
  | finished : Loc
  | failedT : Loc
  | helpT : Loc
deriving DecidableEq, Repr

/-- Move the file of task `t` to location `x`; all other files stay put. -/
def setLoc (loc : String → Loc) (t : String) (x : Loc) : String → Loc :=
  fun u => if u = t then x else loc u

/-- One atomic transition of the mailbox protocol: the coordinator publishes
a staged task into `open-tasks/`; a worker renames an open task into its
private directory (`ClaudeWorker.claim_task`); a worker moves a claimed task
into exactly one of the terminal directories (`ClaudeWorker.execute_task`);
a help-state task is republished into `open-tasks/`
(`FileBasedSLAPSCoordinator.scan_directories`). Each constructor corresponds
to one atomic rename (or create) on the directory tree; there is no
transition out of `finished` or `failedT`. -/
inductive Step : (String → Loc) → (String → Loc) → Prop where
  | publish (loc : String → Loc) (t : String) :
      loc t = Loc.staged → Step loc (setLoc loc t Loc.openT)
  | claim (loc : String → Loc) (t : String) (w : Nat) :
      loc t = Loc.openT → Step loc (setLoc loc t (Loc.claimed w))
  | finish (loc : String → Loc) (t : String) (w : Nat) :
      loc t = Loc.claimed w → Step loc (setLoc loc t Loc.finished)
  | fail (loc : String → Loc) (t : String) (w : Nat) :
      loc t = Loc.claimed w → Step loc (setLoc loc t Loc.failedT)
  | help (loc : String → Loc) (t : String) (w : Nat) :
      loc t = Loc.claimed w → Step loc (setLoc loc t Loc.helpT)
  | republish (loc : String → Loc) (t : String) :
      loc t = Loc.helpT → Step loc (setLoc loc t Loc.openT)

/-- Atomic rename of the file of task `src` from `open-tasks/` into the
private directory of worker `w`, as performed by
`task_file.rename(my_task_file)` in `ClaudeWorker.claim_task`. Returns
`none` when the source file no longer exists in `open-tasks/`
(the `FileNotFoundError` branch: some other worker already claimed it). -/
def rename (loc : String → Loc) (src : String) (w : Nat) :
    Option (String → Loc) :=
  if loc src = Loc.openT then some (setLoc loc src (Loc.claimed w)) else none

/-- `ClaudeWorker.claim_task`: try the candidate task files in order; a
successful rename claims that task, a `FileNotFoundError` is treated as a
race loss and the worker moves on to the next candidate; if no candidate can
be claimed the worker returns `none` and the filesystem is unchanged. -/
def claimTask (w : Nat) (loc : String → Loc) :
    List String → Option String × (String → Loc)
  | [] => (none, loc)
  | t :: rest =>
    match rename loc t w with
    | some locN => (some t, locN)
    | none => claimTask w loc rest

/-- Serialization of `n` workers all attempting `claim_task` on the same
single open task `t`, in the order given by the list (atomic renames
serialize any true interleaving). Returns the outcome of each worker
together with the final filesystem. -/
def runClaims (t : String) (loc : String → Loc) :
    List Nat → List (Nat × Option String) × (String → Loc)
  | [] => ([], loc)
  | w :: ws =>
    let step := claimTask w loc [t]
    let rest := runClaims t step.2 ws
    ((w, step.1) :: rest.1, rest.2)

/-- State of `FileBasedSLAPSCoordinator` as far as scheduling is concerned:
the loaded task ids (dict insertion order), the dependency map built by
`load_tasks`, and the `completed_tasks`, `failed_tasks` and `in_progress`
tracking collections. -/
structure FCState where
  tasks : List String
  deps : String → List String
  completed : List String
  failed : List String
  inProgress : List String

/-- The per-task condition tested by
`FileBasedSLAPSCoordinator.get_ready_tasks`: not completed, not failed, not
in progress, and every dependency completed. -/
def isReady (s : FCState) (t : String) : Bool :=
  !s.completed.contains t && !s.failed.contains t &&
    !s.inProgress.contains t && (s.deps t).all (fun d => s.completed.contains d)

/-- `FileBasedSLAPSCoordinator.get_ready_tasks`: iterate over the dependency
map (whose keys are exactly the loaded task ids, in insertion order) and
keep the tasks whose readiness condition holds. -/
def getReadyTasks (s : FCState) : List String :=
  s.tasks.filter (isReady s)

/-- True exactly when the file sits in some worker-private directory. -/
def isClaimed : Loc → Bool
  | Loc.claimed _ => true
  | _ => false

/-- The coordinator state that `scan_directories` reconstructs from a
mailbox filesystem: completed = stems in `finished-tasks/`, failed = stems in
`failed-tasks/`, in progress = stems in the worker-private directories. -/
def stateOf (ids : List String) (deps : String → List String)
    (loc : String → Loc) : FCState :=
  { tasks := ids
    deps := deps
    completed := ids.filter (fun t => loc t = Loc.finished)
    failed := ids.filter (fun t => loc t = Loc.failedT)
    inProgress := ids.filter (fun t => isClaimed (loc t)) }

/-- Guard of the main loop of `FileBasedSLAPSCoordinator.run`:
`while len(self.completed_tasks) < len(self.tasks)`. The loop keeps running
exactly while this is `true` (absent a `KeyboardInterrupt`). -/
def loopContinues (s : FCState) : Bool :=
  s.completed.length < s.tasks.length

/-- `FileBasedSLAPSCoordinator.publish_ready_tasks`: take the first five
ready tasks (`ready[:5]`), and for each whose file is not already present in
`open-tasks/` write the task file and count it as published. Returns the new
contents of `open-tasks/` and the number of files written. -/
def publishReadyTasks (s : FCState) (openFiles : List String) :
    List String × Nat :=
  ((getReadyTasks s).take 5).foldl
    (fun acc t => if acc.1.contains t then acc else (acc.1 ++ [t], acc.2 + 1))
    (openFiles, 0)

/-- Kind of a shared resource, from the `shared_resources` configuration
consumed by `ResourceManager.__init__`: `"exclusive"` becomes a
`threading.Lock`, `"shared_limited"` with a capacity becomes a
`threading.Semaphore(capacity)`. -/
inductive RKind where
  | exclusive : RKind
  | sharedLimited : Nat → RKind
deriving DecidableEq, Repr

/-- One entry of `ResourceManager.locks`: its kind and the number of permits
currently available (a free `threading.Lock` has one permit, a held one has
zero; a semaphore holds its internal counter). -/
structure Res where
  kind : RKind
  avail : Nat
deriving DecidableEq, Repr

/-- The `ResourceManager.locks` dict, as an association list keyed by
resource name (Python dict keys are unique; updates touch the first match). -/
def Locks := List (String × Res)
deriving instance DecidableEq for Locks

/-- `ResourceManager.__init__`: build the lock table from the configuration;
an exclusive resource starts as a free lock (one permit), a shared-limited
resource starts as a semaphore with `capacity` permits. -/
def initLocks (config : List (String × RKind)) : Locks :=
  config.map (fun p =>
    (p.1, { kind := p.2,
            avail := match p.2 with
              | RKind.exclusive => 1
              | RKind.sharedLimited c => c }))

/-- Dict lookup `self.locks[name]` (with the `name in self.locks` guard). -/
def lookupRes : Locks → String → Option Res
  | [], _ => none
  | (k, v) :: rest, n => if k = n then some v else lookupRes rest n

/-- Update the permit count of the entry for `n`, leaving everything else
unchanged; a name with no entry leaves the table unchanged. -/
def updateRes : Locks → String → (Nat → Nat) → Locks
  | [], _, _ => []
  | (k, v) :: rest, n, f =>
    if k = n then (k, { kind := v.kind, avail := f v.avail }) :: rest
    else (k, v) :: updateRes rest n f

/-- `lock.acquire(blocking=False)` success effect: consume one permit. -/
def decRes (l : Locks) (n : String) : Locks :=
  updateRes l n (fun a => a - 1)

/-- `lock.release()` effect on the counter: return one permit
(`threading.Semaphore.release` increments without any upper bound). -/
def incRes (l : Locks) (n : String) : Locks :=
  updateRes l n (fun a => a + 1)

/-- Number of permits currently available for `n` (zero for an absent name). -/
def availAt (l : Locks) (n : String) : Nat :=
  match lookupRes l n with
  | none => 0
  | some r => r.avail

/-- The rollback loop of `ResourceManager.acquire`:
`for acq_name in acquired: self.locks[acq_name].release()`. Every resource
in `acquired` was acquired in this call, so each release just returns one
permit. -/
def rollback (l : Locks) (acquired : List String) : Locks :=
  acquired.foldl incRes l

/-- Body of `ResourceManager.acquire` with the `acquired` accumulator made
explicit: names absent from the lock table are skipped; a name with an
available permit is acquired (non-blocking) and appended to `acquired`; on
the first unavailable name every resource acquired so far is released and
the call fails. -/
def acquireGo (l : Locks) : List String → List String → Locks × Bool
  | [], _ => (l, true)
  | n :: rest, acquired =>
    match lookupRes l n with
    | none => acquireGo l rest acquired
    | some r =>
      if 0 < r.avail then acquireGo (decRes l n) rest (acquired ++ [n])
      else (rollback l acquired, false)

/-- `ResourceManager.acquire(task_id, resource_names)`: try to acquire all
required resources atomically, rolling back on failure. Returns the lock
table afterward and the success flag. -/
def acquire (l : Locks) (names : List String) : Locks × Bool :=
  acquireGo l names []

/-- `ResourceManager.release(task_id, resource_names)`: release each named
resource in order, skipping names absent from the table. Releasing a
semaphore always increments its counter; releasing a `threading.Lock` that
is not held raises `RuntimeError`, which propagates out of the loop leaving
the earlier releases in place. The Bool records whether the call raised. -/
def releaseRun (l : Locks) : List String → Locks × Bool
  | [] => (l, false)
  | n :: rest =>
    match lookupRes l n with
    | none => releaseRun l rest
    | some r =>
      match r.kind with
      | RKind.sharedLimited _ => releaseRun (incRes l n) rest
      | RKind.exclusive =>
        if r.avail = 0 then releaseRun (incRes l n) rest
        else (l, true)

/-- One dependency edge of `dag.json`, a `from`/`to` pair of task ids. -/
structure DagEdge where
  fromId : String
  toId : String
deriving DecidableEq, Repr

/-- Processing of one edge in `load_tasks` / `SLAPSCoordinator.__init__`:
`if to_task in self.dependencies: self.dependencies[to_task].add(from_task)`.
An edge whose target id is not a declared task is silently dropped; the
source id is added to the target task dependency set (set semantics: no
duplicates) without being checked against the declared tasks. -/
def addDep (deps : List (String × List String)) (e : DagEdge) :
    List (String × List String) :=
  deps.map (fun p =>
    if p.1 = e.toId then
      (p.1, if p.2.contains e.fromId then p.2 else p.2 ++ [e.fromId])
    else p)

/-- The dependency-map construction of
`FileBasedSLAPSCoordinator.load_tasks`: start from
`{t: set() for t in tasks}` and fold the edges of `dag.json` through the
guarded insertion. The result is total — no edge ever causes a load
failure. -/
def loadDependencies (ids : List String) (edges : List DagEdge) :
    List (String × List String) :=
  edges.foldl addDep (ids.map (fun t => (t, [])))

/-- The dispatch envelope written by
`FileBasedSLAPSCoordinator.create_task_file` and later annotated by the
worker: task id, creation timestamp, the embedded task payload, the list of
completed dependencies, the transition instructions, and the completion
fields added by `ClaudeWorker.execute_task` (absent until completion). -/
structure TaskRecord where
  task_id : String
  created_at : String
  task : String
  dependencies_completed : List String
  instructions : List String
  completed_at : Option String
  completed_by : Option String
  completion_summary : Option String
deriving DecidableEq, Repr

/-- `FileBasedSLAPSCoordinator.create_task_file`: wrap the task payload in
the coordination envelope; `dependencies_completed` is the intersection of
the dependency set of the task with the completed set. No completion fields
are present at publication time. -/
def createTaskFile (taskId now payload : String)
    (deps completed : List String) : TaskRecord :=
  { task_id := taskId
    created_at := now
    task := payload
    dependencies_completed := deps.filter (fun d => completed.contains d)
    instructions :=
      [ "Move this file to finished-tasks/" ++ taskId ++ ".json"
      , "Move this file to failed-tasks/" ++ taskId ++ ".json with error details"
      , "Move to help-me/" ++ taskId ++ ".json with help_request field explaining the issue"
      , "claude-XXX/" ++ taskId ++ ".json (where XXX is your worker ID)" ]
    completed_at := none
    completed_by := none
    completion_summary := none }

/-- The `done` branch of `ClaudeWorker.execute_task`: set `completed_at`,
`completed_by` and `completion_summary` on the record that was read from the
claimed file, then write the result into `finished-tasks/`. Claiming is a
rename, so the record read by the worker is exactly the published record. -/
def completeTask (r : TaskRecord) (workerName summary now : String) :
    TaskRecord :=
  { r with
    completed_at := some now
    completed_by := some workerName
    completion_summary := some summary }

/-- Forget the three completion fields of a record (used to compare a
finished record with its published form). -/
def eraseCompletionFields (r : TaskRecord) : TaskRecord :=
  { r with
    completed_at := none
    completed_by := none
    completion_summary := none }

/-! ## Theorems -/

/-- C2: for every task `t` of the coordinator and every coordinator state,
`t` is in the list returned by `get_ready_tasks` if and only if every
dependency of `t` is in the completed set and `t` is not itself completed,
not failed, and not already in progress. -/
theorem mem_getReadyTasks_iff (s : FCState) (t : String) (ht : t ∈ s.tasks) :
    t ∈ getReadyTasks s ↔
      ((∀ d ∈ s.deps t, d ∈ s.completed) ∧
        t ∉ s.completed ∧ t ∉ s.failed ∧ t ∉ s.inProgress) := by
  simp only [getReadyTasks, List.mem_filter, isReady, Bool.and_eq_true,
    Bool.not_eq_true', List.elem_eq_mem, decide_eq_false_iff_not,
    List.all_eq_true, decide_eq_true_eq]
  constructor
  · rintro ⟨-, ⟨⟨⟨hc, hf⟩, hp⟩, hall⟩⟩
    exact ⟨hall, hc, hf, hp⟩
  · rintro ⟨hall, hc, hf, hp⟩
    exact ⟨ht, ⟨⟨⟨hc, hf⟩, hp⟩, hall⟩⟩

/-- Witness for C2 at a concrete state: task `T2` with its single
dependency `T1` completed is ready. -/
theorem mem_getReadyTasks_iff_witness :
    "T2" ∈ getReadyTasks
      { tasks := ["T1", "T2"]
        deps := fun t => if t = "T2" then ["T1"] else []
        completed := ["T1"]
        failed := []
        inProgress := [] } :=
  (mem_getReadyTasks_iff _ "T2" (by decide)).mpr (by decide)

/-- C5: evaluated at a manifest declaring the single task `A` and a
dependency edge into the undeclared task id `B`, the graph loader silently
drops the edge and still produces a graph (the dependency set of `A` stays
empty and no failure is signalled): the loader is a total function with no
`GraphLoadError` path, contradicting the specified load-time failure. -/
theorem unknown_edge_silently_dropped :
    loadDependencies ["A"] [{ fromId := "A", toId := "B" }] = [("A", [])] := by
  decide

/-- C6 counterexample: a state in which the single loaded task has failed.
The union of the completed and failed sets covers all tasks, yet the loop
guard of `FileBasedSLAPSCoordinator.run` still holds (the loop does not
terminate), because the guard compares only the completed count with the
task count. -/
theorem loop_guard_ignores_failed :
    (∀ t ∈ (["T1"] : List String), t ∈ ([] : List String) ∨ t ∈ (["T1"] : List String)) ∧
      loopContinues
        { tasks := ["T1"], deps := fun _ => [], completed := [],
          failed := ["T1"], inProgress := [] } = true := by
  constructor
  · intro t htm
    exact Or.inr htm
  · decide

/-- C6 amended: the main loop of `FileBasedSLAPSCoordinator.run` (absent
operator interrupt) terminates exactly when the completed set alone covers
all loaded tasks; failed tasks do not count toward termination, so the loop
does not terminate on its own when some task has failed rather than
completed. Stated for states whose completed set is a duplicate-free subset
of the loaded tasks. -/
theorem loop_terminates_iff_all_completed (s : FCState)
    (hsub : s.completed ⊆ s.tasks) (hndc : s.completed.Nodup)
    (hndt : s.tasks.Nodup) :
    loopContinues s = false ↔ ∀ t ∈ s.tasks, t ∈ s.completed := by
  simp only [loopContinues, decide_eq_false_iff_not, not_lt]
  constructor
  · intro h t htm
    have hsp : s.completed.Subperm s.tasks := hndc.subperm hsub
    have hperm := hsp.perm_of_length_le h
    exact hperm.mem_iff.mpr htm
  · intro h
    exact (hndt.subperm h).length_le

/-- Witness for the amended C6 at a concrete fully-completed state. -/
theorem loop_terminates_iff_all_completed_witness :
    loopContinues
        { tasks := ["T1", "T2"], deps := fun _ => [], completed := ["T1", "T2"],
          failed := [], inProgress := [] } = false ↔
      ∀ t ∈ (["T1", "T2"] : List String), t ∈ (["T1", "T2"] : List String) :=
  loop_terminates_iff_all_completed _ (fun _ h => h) (by decide) (by decide)

/-- C8: a task published to Open by `create_task_file`, claimed by rename
(which leaves the record untouched), and completed into `finished-tasks/`
by the `done` branch of `ClaudeWorker.execute_task`, reads back with the
same `task_id` and the same embedded task payload as the published record,
and differs from it only in the added `completed_at`, `completed_by` and
`completion_summary` fields. -/
theorem finished_record_round_trip (taskId now payload : String)
    (deps completed : List String) (workerName summary doneAt : String) :
    (completeTask (createTaskFile taskId now payload deps completed)
        workerName summary doneAt).task_id =
      (createTaskFile taskId now payload deps completed).task_id ∧
    (completeTask (createTaskFile taskId now payload deps completed)
        workerName summary doneAt).task =
      (createTaskFile taskId now payload deps completed).task ∧
    eraseCompletionFields
        (completeTask (createTaskFile taskId now payload deps completed)
          workerName summary doneAt) =
      createTaskFile taskId now payload deps completed ∧
    (completeTask (createTaskFile taskId now payload deps completed)
        workerName summary doneAt).completed_at = some doneAt ∧
    (completeTask (createTaskFile taskId now payload deps completed)
        workerName summary doneAt).completed_by = some workerName ∧
    (completeTask (createTaskFile taskId now payload deps completed)
        workerName summary doneAt).completion_summary = some summary :=
  ⟨rfl, rfl, rfl, rfl, rfl, rfl⟩

/-- The step function of the publication loop in `publish_ready_tasks`
increases the published counter by at most one per ready task. -/
theorem publishFold_le (l : List String) (p : List String × Nat) :
    (l.foldl
        (fun acc t =>
          if acc.1.contains t then acc else (acc.1 ++ [t], acc.2 + 1))
        p).2 ≤ p.2 + l.length := by
  induction l generalizing p with
    | nil => simp
    | cons t rest ih =>
      rw [List.foldl_cons]
      by_cases h : p.1.contains t
      · rw [if_pos h]
        calc (rest.foldl _ p).2 ≤ p.2 + rest.length := ih p
          _ ≤ p.2 + (t :: rest).length := by simp [Nat.le_succ_of_le]
      · rw [if_neg h]
        calc (rest.foldl _ (p.1 ++ [t], p.2 + 1)).2
            ≤ (p.2 + 1) + rest.length := ih (p.1 ++ [t], p.2 + 1)
          _ = p.2 + (t :: rest).length := by simp [List.length_cons]; omega

/-- C9: every invocation of `publish_ready_tasks` writes at most five new
task files into `open-tasks/`, however many tasks are ready; ready tasks
beyond the first five are left for later ticks. -/
theorem publish_at_most_five (s : FCState) (openFiles : List String) :
    (publishReadyTasks s openFiles).2 ≤ 5 := by
  have h := publishFold_le ((getReadyTasks s).take 5) (openFiles, 0)
  calc (publishReadyTasks s openFiles).2
      ≤ 0 + ((getReadyTasks s).take 5).length := h
    _ ≤ 5 := by simp [List.length_take_le 5 (getReadyTasks s)]

/-- A worker whose single candidate task is no longer in `open-tasks/`
observes the file-not-found outcome, claims nothing, and leaves the
filesystem unchanged; a whole sequence of such workers likewise. -/
theorem runClaims_of_not_open (t : String) (loc : String → Loc)
    (ws : List Nat) (h : loc t ≠ Loc.openT) :
    runClaims t loc ws =
      (ws.map (fun w => (w, (none : Option String))), loc) := by
  induction ws with
  | nil => rfl
  | cons w ws ih =>
    simp only [runClaims, claimTask, rename, if_neg h, List.map_cons]
    rw [ih]

/-- C1: for an open task file and any number of workers attempting to claim
it through the atomic rename of `ClaudeWorker.claim_task` (renames
serialize, so a concurrent execution is an interleaving `w :: ws`), exactly
the first rename succeeds: the first worker gets the task, every other
worker observes the file-not-found outcome (a non-fatal race loss, the
worker just moves on), and afterward the task file sits in exactly the
private directory of the successful worker — it is never claimed by two
workers. -/
theorem claim_exactly_one (t : String) (loc : String → Loc) (w : Nat)
    (ws : List Nat) (h : loc t = Loc.openT) :
    (runClaims t loc (w :: ws)).1 =
        (w, some t) :: ws.map (fun v => (v, (none : Option String))) ∧
      (runClaims t loc (w :: ws)).2 t = Loc.claimed w := by
  have hne : setLoc loc t (Loc.claimed w) t ≠ Loc.openT := by
    simp [setLoc]
  have hstep :
      claimTask w loc [t] = (some t, setLoc loc t (Loc.claimed w)) := by
    simp [claimTask, rename, if_pos h]
  constructor
  · simp only [runClaims, hstep]
    rw [runClaims_of_not_open t _ ws hne]
  · simp only [runClaims, hstep]
    rw [runClaims_of_not_open t _ ws hne]
    simp [setLoc]

/-- Witness for C1: three workers race for the open task `T1`; worker 1
claims it, workers 2 and 3 lose the race, and the file ends up in the
directory of worker 1. -/
theorem claim_exactly_one_witness :
    (runClaims "T1" (fun _ => Loc.openT) [1, 2, 3]).1 =
        (1, some "T1") ::
          [2, 3].map (fun v => (v, (none : Option String))) ∧
      (runClaims "T1" (fun _ => Loc.openT) [1, 2, 3]).2 "T1" =
        Loc.claimed 1 :=
  claim_exactly_one "T1" (fun _ => Loc.openT) 1 [2, 3] rfl

/-- A task file in `failed-tasks/` stays there across any single protocol
step: no transition of the mailbox protocol moves a file out of the failed
directory. -/
theorem step_preserves_failed {loc locN : String → Loc} (t : String)
    (hstep : Step loc locN) (h : loc t = Loc.failedT) :
    locN t = Loc.failedT := by
  have key : ∀ (u : String) (x : Loc), loc u ≠ Loc.failedT →
      setLoc loc u x t = Loc.failedT := by
    intro u x hu
    unfold setLoc
    split
    case isTrue heq => exact absurd (heq ▸ h) hu
    case isFalse => exact h
  cases hstep with
  | publish u hu => exact key u _ (by simp [hu])
  | claim u w hu => exact key u _ (by simp [hu])
  | finish u w hu => exact key u _ (by simp [hu])
  | fail u w hu => exact key u _ (by simp [hu])
  | help u w hu => exact key u _ (by simp [hu])
  | republish u hu => exact key u _ (by simp [hu])

/-- A task file in `failed-tasks/` stays there in every reachable state of
the mailbox protocol. -/
theorem reachable_preserves_failed {loc0 loc : String → Loc} (t : String)
    (h : loc0 t = Loc.failedT)
    (hr : Relation.ReflTransGen Step loc0 loc) : loc t = Loc.failedT := by
  induction hr with
  | refl => exact h
  | tail _ hstep ih => exact step_preserves_failed t hstep ih

/-- C7: once a prerequisite `t1` of `t2` sits in `failed-tasks/`, then in
every later mailbox state reachable by protocol steps (no manual override
moves files out of the failed directory — indeed no transition does),
`t2` is never in the ready set the coordinator computes from the
directories: failure of a prerequisite permanently excludes its
dependents. -/
theorem failed_dep_blocks_dependent (ids : List String)
    (deps : String → List String) (t1 t2 : String)
    (loc0 loc : String → Loc) (hdep : t1 ∈ deps t2)
    (hfail : loc0 t1 = Loc.failedT)
    (hreach : Relation.ReflTransGen Step loc0 loc) :
    t2 ∉ getReadyTasks (stateOf ids deps loc) := by
  intro hmem
  have h1 : loc t1 = Loc.failedT :=
    reachable_preserves_failed t1 hfail hreach
  rw [getReadyTasks, List.mem_filter] at hmem
  have hready := hmem.2
  simp only [isReady, stateOf, Bool.and_eq_true, List.all_eq_true] at hready
  have hfin := hready.2 t1 hdep
  simp only [List.elem_eq_mem, List.mem_filter, decide_eq_true_eq] at hfin
  rw [h1] at hfin
  exact Loc.noConfusion hfin.2

/-- Witness for C7 at a concrete mailbox state: `T1` has failed, `T2`
depends on it, and `T2` is not ready. -/
theorem failed_dep_blocks_dependent_witness :
    "T2" ∉ getReadyTasks
      (stateOf ["T1", "T2"] (fun t => if t = "T2" then ["T1"] else [])
        (fun t => if t = "T1" then Loc.failedT else Loc.staged)) :=
  failed_dep_blocks_dependent ["T1", "T2"]
    (fun t => if t = "T2" then ["T1"] else []) "T1" "T2"
    (fun t => if t = "T1" then Loc.failedT else Loc.staged)
    (fun t => if t = "T1" then Loc.failedT else Loc.staged)
    (by decide) (by decide) Relation.ReflTransGen.refl

/-- Available permits of the head entry of a lock table. -/
theorem availAt_cons (k : String) (v : Res) (rest : Locks) (n : String) :
    availAt ((k, v) :: rest) n = if k = n then v.avail else availAt rest n := by
  by_cases hk : k = n <;> simp [availAt, lookupRes, hk]

/-- Unfolding of a permit-count update at a nonempty table. -/
theorem updateRes_cons (k : String) (v : Res) (rest : Locks) (n : String)
    (f : Nat → Nat) :
    updateRes ((k, v) :: rest) n f =
      if k = n then (k, { kind := v.kind, avail := f v.avail }) :: rest
      else (k, v) :: updateRes rest n f := rfl

/-- Unfolding of a permit consumption at a nonempty table. -/
theorem decRes_cons (k : String) (v : Res) (rest : Locks) (n : String) :
    decRes ((k, v) :: rest) n =
      if k = n then (k, { kind := v.kind, avail := v.avail - 1 }) :: rest
      else (k, v) :: decRes rest n := rfl

/-- Unfolding of a permit return at a nonempty table. -/
theorem incRes_cons (k : String) (v : Res) (rest : Locks) (n : String) :
    incRes ((k, v) :: rest) n =
      if k = n then (k, { kind := v.kind, avail := v.avail + 1 }) :: rest
      else (k, v) :: incRes rest n := rfl

/-- Returning a permit for `m` and consuming a permit for `n` commute, as
long as a permit for `n` is actually available to consume. -/
theorem inc_dec_comm (l : Locks) (n m : String) (h : 0 < availAt l n) :
    incRes (decRes l n) m = decRes (incRes l m) n := by
  induction l with
  | nil => rfl
  | cons p rest ih =>
    obtain ⟨k, v⟩ := p
    by_cases hn : k = n
    · have hv : 0 < v.avail := by rwa [availAt_cons, if_pos hn] at h
      by_cases hm : k = m
      · subst hn; subst hm
        simp [decRes_cons, incRes_cons, Nat.sub_add_cancel hv]
      · subst hn
        simp [decRes_cons, incRes_cons, hm]
    · by_cases hm : k = m
      · subst hm
        simp [decRes_cons, incRes_cons, hn]
      · have h2 : 0 < availAt rest n := by rwa [availAt_cons, if_neg hn] at h
        simp [decRes_cons, incRes_cons, hn, hm, ih h2]

/-- Returning a permit never lowers any availability count. -/
theorem availAt_le_incRes (l : Locks) (m n : String) :
    availAt l n ≤ availAt (incRes l m) n := by
  induction l with
  | nil => exact Nat.le_refl _
  | cons p rest ih =>
    obtain ⟨k, v⟩ := p
    by_cases hm : k = m
    · subst hm
      by_cases hn : k = n
      · subst hn
        simp [incRes_cons, availAt_cons]
      · simp [incRes_cons, availAt_cons, hn]
    · by_cases hn : k = n
      · subst hn
        simp [incRes_cons, availAt_cons, hm]
      · simp [incRes_cons, availAt_cons, hm, hn, ih]

/-- Consuming an available permit and then returning it restores the lock
table exactly. -/
theorem inc_dec_cancel (l : Locks) (n : String) (h : 0 < availAt l n) :
    incRes (decRes l n) n = l := by
  induction l with
  | nil => rfl
  | cons p rest ih =>
    obtain ⟨k, v⟩ := p
    by_cases hn : k = n
    · have hv : 0 < v.avail := by rwa [availAt_cons, if_pos hn] at h
      subst hn
      simp [decRes_cons, incRes_cons, Nat.sub_add_cancel hv]
    · have h2 : 0 < availAt rest n := by rwa [availAt_cons, if_neg hn] at h
      simp [decRes_cons, incRes_cons, hn, ih h2]

/-- The rollback loop never lowers any availability count. -/
theorem availAt_le_rollback (l : Locks) (acq : List String) (n : String) :
    availAt l n ≤ availAt (rollback l acq) n := by
  induction acq generalizing l with
  | nil => exact Nat.le_refl _
  | cons a acq ih =>
    exact Nat.le_trans (availAt_le_incRes l a n) (ih (incRes l a))

/-- Consuming a permit commutes with a whole rollback loop. -/
theorem rollback_decRes (l : Locks) (n : String) (acq : List String)
    (h : 0 < availAt l n) :
    rollback (decRes l n) acq = decRes (rollback l acq) n := by
  induction acq generalizing l with
  | nil => rfl
  | cons a acq ih =>
    show rollback (incRes (decRes l n) a) acq = _
    rw [inc_dec_comm l n a h]
    exact ih (incRes l a)
      (Nat.lt_of_lt_of_le h (availAt_le_incRes l a n))

/-- When the acquisition loop of `ResourceManager.acquire` fails, the lock
table it returns is exactly the rollback of its current table over the
resources acquired so far in this call. -/
theorem acquireGo_eq_rollback (names : List String) (l : Locks)
    (acq : List String) (h : (acquireGo l names acq).2 = false) :
    (acquireGo l names acq).1 = rollback l acq := by
  induction names generalizing l acq with
  | nil => exact absurd h (by simp [acquireGo])
  | cons n rest ih =>
    cases hl : lookupRes l n with
    | none =>
      simp only [acquireGo, hl] at h ⊢
      exact ih l acq h
    | some r =>
      by_cases hav : 0 < r.avail
      · simp only [acquireGo, hl, if_pos hav] at h ⊢
        have havl : 0 < availAt l n := by rw [availAt, hl]; exact hav
        rw [ih (decRes l n) (acq ++ [n]) h]
        show rollback (decRes l n) (acq ++ [n]) = rollback l acq
        rw [rollback, List.foldl_append]
        show incRes (rollback (decRes l n) acq) n = rollback l acq
        rw [rollback_decRes l n acq havl]
        exact inc_dec_cancel (rollback l acq) n
          (Nat.lt_of_lt_of_le havl (availAt_le_rollback l acq n))
      · simp only [acquireGo, hl, if_neg hav]

/-- C3: whenever `ResourceManager.acquire` returns `False`, the lock and
semaphore state after the call equals the state before it — every resource
acquired earlier in the same call has been released again, so a caller
never retains an incomplete grant. -/
theorem acquire_fail_state_unchanged (l lN : Locks) (names : List String)
    (h : acquire l names = (lN, false)) : lN = l := by
  have h2 : (acquireGo l names []).2 = false := by
    rw [acquire] at h; rw [h]
  have h1 : (acquireGo l names []).1 = lN := by
    rw [acquire] at h; rw [h]
  rw [← h1, acquireGo_eq_rollback names l [] h2]
  rfl

/-- Witness for C3: acquiring `A` (free) then `B` (held) fails, and the
lock table afterward is the original one — `A` is free again. -/
theorem acquire_fail_state_unchanged_witness :
    (acquire [("A", { kind := RKind.exclusive, avail := 1 }),
        ("B", { kind := RKind.exclusive, avail := 0 })] ["A", "B"]).1 =
      [("A", { kind := RKind.exclusive, avail := 1 }),
        ("B", { kind := RKind.exclusive, avail := 0 })] :=
  acquire_fail_state_unchanged
    [("A", { kind := RKind.exclusive, avail := 1 }),
      ("B", { kind := RKind.exclusive, avail := 0 })]
    (acquire [("A", { kind := RKind.exclusive, avail := 1 }),
        ("B", { kind := RKind.exclusive, avail := 0 })] ["A", "B"]).1
    ["A", "B"] (by decide)

/-- C4 counterexample: releasing a free exclusive lock raises
(`threading.Lock.release` on an unlocked lock raises `RuntimeError`), and
releasing a shared-limited pool already at its full capacity of two pushes
its available count to three, beyond the configured capacity —
`threading.Semaphore.release` has no upper bound. Both contradict the
claimed exception-free, state-preserving idempotent release. -/
theorem release_unheld_corrupts :
    (releaseRun [("A", { kind := RKind.exclusive, avail := 1 })] ["A"]).2 =
        true ∧
      releaseRun [("P", { kind := RKind.sharedLimited 2, avail := 2 })]
          ["P"] =
        ([("P", { kind := RKind.sharedLimited 2, avail := 3 })], false) ∧
      2 < 3 := by
  decide

/-- C4 amended: releasing a declared resource that is not currently held is
not idempotent. For an exclusive lock with its permit available (not held)
the release raises `RuntimeError` and leaves the table unchanged; for a
shared-limited pool the release never raises and always increments the
available count by one, even beyond the configured capacity (and, being an
increment, it never drops the count below zero). Undeclared names are
skipped unchanged (see C10). -/
theorem release_unheld_behavior (l : Locks) (n : String) (r : Res)
    (hl : lookupRes l n = some r) (hfree : 0 < r.avail) :
    (r.kind = RKind.exclusive → releaseRun l [n] = (l, true)) ∧
      ∀ c, r.kind = RKind.sharedLimited c →
        releaseRun l [n] = (incRes l n, false) := by
  constructor
  · intro hk
    have hne : r.avail ≠ 0 := Nat.pos_iff_ne_zero.mp hfree
    simp [releaseRun, hl, hk, hne]
  · intro c hk
    simp [releaseRun, hl, hk]

/-- Witness for the amended C4: releasing the free exclusive lock `A`
raises and leaves the table unchanged. -/
theorem release_unheld_behavior_witness :
    releaseRun [("A", { kind := RKind.exclusive, avail := 1 })] ["A"] =
      ([("A", { kind := RKind.exclusive, avail := 1 })], true) :=
  (release_unheld_behavior [("A", { kind := RKind.exclusive, avail := 1 })]
      "A" { kind := RKind.exclusive, avail := 1 } rfl (by decide)).1 rfl

/-- The acquisition loop skips every name absent from the lock table. -/
theorem acquireGo_all_absent : ∀ (names acq : List String) (l : Locks),
    (∀ n ∈ names, lookupRes l n = none) → acquireGo l names acq = (l, true)
  | [], _, _, _ => rfl
  | n :: rest, acq, l, h => by
    simp only [acquireGo, h n (List.mem_cons_self n rest)]
    exact acquireGo_all_absent rest acq l
      (fun m hm => h m (List.mem_cons_of_mem n hm))

/-- The release loop skips every name absent from the lock table. -/
theorem releaseRun_all_absent : ∀ (names : List String) (l : Locks),
    (∀ n ∈ names, lookupRes l n = none) → releaseRun l names = (l, false)
  | [], _, _ => rfl
  | n :: rest, l, h => by
    simp only [releaseRun, h n (List.mem_cons_self n rest)]
    exact releaseRun_all_absent rest l
      (fun m hm => h m (List.mem_cons_of_mem n hm))

/-- C10: for every list of resource names none of which is declared in the
resource configuration, `ResourceManager.acquire` returns `True` leaving
all lock and semaphore state unchanged, and `ResourceManager.release` on
the same names changes nothing and raises nothing: undeclared resource
names are silently skipped rather than rejected. -/
theorem undeclared_resources_skipped (l : Locks) (names : List String)
    (h : ∀ n ∈ names, lookupRes l n = none) :
    acquire l names = (l, true) ∧ releaseRun l names = (l, false) :=
  ⟨acquireGo_all_absent names [] l h, releaseRun_all_absent names l h⟩

/-- Witness for C10 with two undeclared names against a one-lock table. -/
theorem undeclared_resources_skipped_witness :
    acquire [("A", { kind := RKind.exclusive, avail := 1 })] ["X", "Y"] =
        ([("A", { kind := RKind.exclusive, avail := 1 })], true) ∧
      releaseRun [("A", { kind := RKind.exclusive, avail := 1 })]
          ["X", "Y"] =
        ([("A", { kind := RKind.exclusive, avail := 1 })], false) :=
  undeclared_resources_skipped _ ["X", "Y"] (by decide)

end Slaps
